import Mathlib

/-!
Verification of the invitation backend's core logic: schema validation,
derived-field extraction, slug generation, the invitation lifecycle
(create / update / publish / unpublish / delete / list) and referral-code
generation, shallowly embedded from the TypeScript sources
(`src/utils/validation.ts`, `src/services/InvitationService.ts`,
`src/controllers/InvitationController.ts`, `src/services/ResellerService.ts`,
`src/utils/helpers.ts`) and the SQL function `generate_invitation_slug`.
-/

namespace Inv

/-- Model of a JavaScript runtime value as stored in `form_data` payloads. -/
inductive JsValue where
  | str (s : String)
  | num (n : Int)
  | bool (b : Bool)
  | null
  | arr (elems : List JsValue)
  | obj (fields : List (String × JsValue))

/-- JavaScript truthiness: `''`, `0`, `false`, `null` are falsy; objects and
arrays are always truthy. -/
def truthy : JsValue → Bool
  | .str s => !(s == "")
  | .num n => !(n == 0)
  | .bool b => b
  | .null => false
  | .arr _ => true
  | .obj _ => true

/-- Whether the runtime value is a string (`typeof v === 'string'`). -/
def isStr : JsValue → Bool
  | .str _ => true
  | _ => false

/-- Whether the runtime value is an array (`Array.isArray(v)`). -/
def isArr : JsValue → Bool
  | .arr _ => true
  | _ => false

/-- A form-data payload: a JavaScript object, modelled as an association list
of key/value pairs in insertion order. -/
abbrev FormData := List (String × JsValue)

/-- Property access `fd[key]`: the value at the first occurrence of `key`,
`none` when the key is absent (JS `undefined`). -/
def jget : FormData → String → Option JsValue
  | [], _ => none
  | (k, v) :: rest, key => if k = key then some v else jget rest key

/-- JavaScript object spread `{...a, ...b}`: keys of `a` in order with values
overridden by `b` where `b` has the key, followed by the keys of `b` absent
from `a`. -/
def mergeObj (a b : FormData) : FormData :=
  (a.map fun kv => match jget b kv.1 with
    | some v => (kv.1, v)
    | none => kv) ++
  b.filter fun kv => (jget a kv.1).isNone

/-! ## Schema Validator (`src/utils/validation.ts`)

The validators are parametrised by `dateOk : JsValue → Bool`, the validity
verdict of the JavaScript `Date` constructor (`isValidDate` in the source:
`!isNaN(new Date(v).getTime())`).  The `Date` engine belongs to the runtime,
not to this repository, so it is kept abstract. -/

/-- Supported invitation categories (`InvitationType` in
`src/types/invitation.ts`). -/
inductive InvitationType where
  | wedding | birthday | graduation | baby_shower | business | anniversary | party
deriving DecidableEq

/-- The string value of each `InvitationType` enum member. -/
def typeStr : InvitationType → String
  | .wedding => "wedding"
  | .birthday => "birthday"
  | .graduation => "graduation"
  | .baby_shower => "baby_shower"
  | .business => "business"
  | .anniversary => "anniversary"
  | .party => "party"

/-- Result of the Schema Validator (`ValidationResult`). -/
structure ValidationResult where
  isValid : Bool
  errors : List String
deriving DecidableEq

/-- Package an error list as a `ValidationResult`
(`{ isValid: errors.length === 0, errors }`). -/
def mkResult (errors : List String) : ValidationResult :=
  { isValid := errors.isEmpty, errors := errors }

/-- One field check of the source validators: the pattern
`if (data.k && bad(data.k)) errors.push(msg)` contributes `[msg]` exactly when
the field is present, truthy and bad. -/
def jcheck (fd : FormData) (key : String) (bad : JsValue → Bool) (msg : String) :
    List String :=
  match jget fd key with
  | some v => if truthy v && bad v then [msg] else []
  | none => []

/-- Embeds `validateWeddingData`. -/
def validateWeddingData (dateOk : JsValue → Bool) (fd : FormData) : ValidationResult :=
  mkResult
    (jcheck fd "groomName" (fun v => !isStr v) "Groom name must be a string" ++
     jcheck fd "brideName" (fun v => !isStr v) "Bride name must be a string" ++
     jcheck fd "eventDate" (fun v => !dateOk v) "Invalid event date" ++
     jcheck fd "venueName" (fun v => !isStr v) "Venue name must be a string")

/-- Embeds `validateBirthdayData`. -/
def validateBirthdayData (dateOk : JsValue → Bool) (fd : FormData) : ValidationResult :=
  mkResult
    (jcheck fd "celebrantName" (fun v => !isStr v) "Celebrant name must be a string" ++
     jcheck fd "age"
       (fun v => match v with | .num n => decide (n < 0) | _ => true)
       "Age must be a positive number" ++
     jcheck fd "partyDate" (fun v => !dateOk v) "Invalid party date")

/-- Embeds `validateGraduationData`. -/
def validateGraduationData (dateOk : JsValue → Bool) (fd : FormData) : ValidationResult :=
  mkResult
    (jcheck fd "graduateName" (fun v => !isStr v) "Graduate name must be a string" ++
     jcheck fd "degree" (fun v => !isStr v) "Degree must be a string" ++
     jcheck fd "school" (fun v => !isStr v) "School must be a string" ++
     jcheck fd "graduationDate" (fun v => !dateOk v) "Invalid graduation date")

/-- Embeds `validateBabyShowerData`. -/
def validateBabyShowerData (dateOk : JsValue → Bool) (fd : FormData) : ValidationResult :=
  mkResult
    (jcheck fd "parentNames" (fun v => !isArr v) "Parent names must be an array" ++
     jcheck fd "dueDate" (fun v => !dateOk v) "Invalid due date" ++
     jcheck fd "partyDate" (fun v => !dateOk v) "Invalid party date" ++
     jcheck fd "gender"
       (fun v => match v with
         | .str s => !(s == "boy" || s == "girl" || s == "surprise")
         | _ => true)
       "Gender must be \"boy\", \"girl\", or \"surprise\"")

/-- Embeds `validateBusinessData`. -/
def validateBusinessData (dateOk : JsValue → Bool) (fd : FormData) : ValidationResult :=
  mkResult
    (jcheck fd "eventTitle" (fun v => !isStr v) "Event title must be a string" ++
     jcheck fd "company" (fun v => !isStr v) "Company must be a string" ++
     jcheck fd "eventDate" (fun v => !dateOk v) "Invalid event date")

/-- Embeds `validateInvitationData`: dispatch on the category, with the
`default` branch reporting "Invalid invitation type". -/
def validateInvitationData (dateOk : JsValue → Bool) (ty : InvitationType)
    (fd : FormData) : ValidationResult :=
  match ty with
  | .wedding => validateWeddingData dateOk fd
  | .birthday => validateBirthdayData dateOk fd
  | .graduation => validateGraduationData dateOk fd
  | .baby_shower => validateBabyShowerData dateOk fd
  | .business => validateBusinessData dateOk fd
  | .anniversary => mkResult ["Invalid invitation type"]
  | .party => mkResult ["Invalid invitation type"]

/-! ## Field Extractor (`InvitationService.extractEventDate` etc.) -/

/-- The pattern `formData?.k || null`: the field's value when present and
truthy, otherwise `null`. -/
def getTruthy (fd : FormData) (key : String) : Option JsValue :=
  match jget fd key with
  | some v => if truthy v then some v else none
  | none => none

/-- Embeds `InvitationService.extractEventDate`: the category-specific date
field, `null` for categories outside the switch. -/
def extractEventDate (ty : InvitationType) (fd : FormData) : Option JsValue :=
  match ty with
  | .wedding => getTruthy fd "eventDate"
  | .birthday => getTruthy fd "partyDate"
  | .graduation => getTruthy fd "graduationDate"
  | .baby_shower => getTruthy fd "partyDate"
  | .business => getTruthy fd "eventDate"
  | .anniversary => none
  | .party => none

/-- Embeds `InvitationService.extractVenueName` (category-independent). -/
def extractVenueName (fd : FormData) : Option JsValue :=
  getTruthy fd "venueName"

/-- Embeds `InvitationService.extractVenueAddress` (category-independent). -/
def extractVenueAddress (fd : FormData) : Option JsValue :=
  getTruthy fd "venueAddress"

/-! ## Decimal rendering

The SQL slug loop concatenates `base_slug || '-' || counter`, rendering the
integer counter in decimal; the TypeScript fallback slug interpolates
`Date.now()` the same way.  `decRepr` is that decimal rendering. -/

/-- Little-endian decimal digits of `n`; the first argument is fuel (taking
`n` itself as fuel always suffices since `n / 10 < n` for `n > 0`). -/
def decDigitsAux : Nat → Nat → List Nat
  | 0, _ => []
  | f + 1, n => if n = 0 then [] else n % 10 :: decDigitsAux f (n / 10)

/-- Decimal string representation of a natural number. -/
def decRepr (n : Nat) : String :=
  if n = 0 then "0" else String.mk (((decDigitsAux n n).map Nat.digitChar).reverse)

/-- Value of a little-endian digit list. -/
def ofDec (l : List Nat) : Nat :=
  l.foldr (fun d acc => d + 10 * acc) 0

theorem ofDec_decDigitsAux : ∀ f n, n ≤ f → ofDec (decDigitsAux f n) = n := by
  intro f
  induction f with
  | zero => intro n hn; interval_cases n; rfl
  | succ f ih =>
    intro n hn
    by_cases h0 : n = 0
    · subst h0; rfl
    · have hdiv : n / 10 ≤ f := by
        have : n / 10 < n := Nat.div_lt_self (Nat.pos_of_ne_zero h0) (by norm_num)
        omega
      simp only [decDigitsAux, h0, if_false, ofDec, List.foldr]
      have := ih (n / 10) hdiv
      simp only [ofDec] at this
      omega

theorem decDigitsAux_lt_ten : ∀ f n d, d ∈ decDigitsAux f n → d < 10 := by
  intro f
  induction f with
  | zero => intro n d hd; simp [decDigitsAux] at hd
  | succ f ih =>
    intro n d hd
    by_cases h0 : n = 0
    · subst h0; simp [decDigitsAux] at hd
    · simp only [decDigitsAux, h0, if_false, List.mem_cons] at hd
      rcases hd with h | h
      · subst h; exact Nat.mod_lt _ (by norm_num)
      · exact ih _ _ h

theorem digitChar_inj_lt : ∀ a, a < 10 → ∀ b, b < 10 →
    Nat.digitChar a = Nat.digitChar b → a = b := by decide

theorem map_digitChar_inj : ∀ l1 l2 : List Nat, (∀ d ∈ l1, d < 10) → (∀ d ∈ l2, d < 10) →
    l1.map Nat.digitChar = l2.map Nat.digitChar → l1 = l2 := by
  intro l1
  induction l1 with
  | nil => intro l2 _ _ h; cases l2 <;> simp_all
  | cons a t ih =>
    intro l2 h1 h2 h
    cases l2 with
    | nil => simp at h
    | cons b t2 =>
      simp only [List.map_cons, List.cons.injEq] at h
      have ha : a = b :=
        digitChar_inj_lt a (h1 a (by simp)) b (h2 b (by simp)) h.1
      have ht : t = t2 :=
        ih t2 (fun d hd => h1 d (by simp [hd])) (fun d hd => h2 d (by simp [hd])) h.2
      rw [ha, ht]

theorem decRepr_inj {a b : Nat} (ha : 1 ≤ a) (hb : 1 ≤ b)
    (h : decRepr a = decRepr b) : a = b := by
  have ha0 : a ≠ 0 := by omega
  have hb0 : b ≠ 0 := by omega
  simp only [decRepr, ha0, hb0, if_false] at h
  injection h with h
  have h2 := List.reverse_injective h
  have h3 := map_digitChar_inj _ _ (fun d hd => decDigitsAux_lt_ten a a d hd)
    (fun d hd => decDigitsAux_lt_ten b b d hd) h2
  have hA := ofDec_decDigitsAux a a (le_refl a)
  have hB := ofDec_decDigitsAux b b (le_refl b)
  rw [h3] at hA
  omega

/-! ## Slug Generator (SQL function `generate_invitation_slug`) -/

/-- Text extraction `form_data->>key` of a JSONB scalar (`NULL` for JSON
null).  Arrays and objects are serialised by the database to their JSON text;
no slug property proved here depends on that text, so it is abstracted by a
fixed marker. -/
def jsonbText : JsValue → Option String
  | .str s => some s
  | .num n => some (if n < 0 then "-" ++ decRepr n.natAbs else decRepr n.toNat)
  | .bool b => some (if b then "true" else "false")
  | .null => none
  | .arr _ => some "[json]"
  | .obj _ => some "[json]"

/-- The SQL `COALESCE(form_data->>key, dflt)`. -/
def coalesceText (fd : FormData) (key dflt : String) : String :=
  match jget fd key with
  | some v => (jsonbText v).getD dflt
  | none => dflt

/-- Lower-case a string character-wise (SQL `LOWER` on ASCII input). -/
def lowerStr (s : String) : String :=
  String.mk (s.data.map Char.toLower)

/-- Raw base slug of the SQL `CASE invitation_type` block, before cleanup. -/
def rawBase (ty : InvitationType) (fd : FormData) : String :=
  match ty with
  | .wedding =>
      lowerStr (coalesceText fd "brideName" "bride" ++ "-" ++
        coalesceText fd "groomName" "groom" ++ "-wedding")
  | .birthday =>
      lowerStr (coalesceText fd "celebrantName" "birthday" ++ "-birthday-" ++
        coalesceText fd "age" "party")
  | .graduation =>
      lowerStr (coalesceText fd "graduateName" "graduate" ++ "-graduation")
  | _ => typeStr ty ++ "-invitation"

/-- Characters the cleanup keeps: the class `[a-z0-9-]`. -/
def isSlugChar (c : Char) : Bool :=
  ('a' ≤ c && c ≤ 'z') || ('0' ≤ c && c ≤ '9') || c == '-'

/-- Collapse runs of consecutive hyphens (`REGEXP_REPLACE(s, '-+', '-', 'g')`). -/
def squeezeHyphens : List Char → List Char
  | [] => []
  | [c] => [c]
  | c1 :: c2 :: rest =>
      if c1 = '-' && c2 = '-' then squeezeHyphens (c2 :: rest)
      else c1 :: squeezeHyphens (c2 :: rest)

/-- Strip leading and trailing hyphens (`TRIM(BOTH '-' FROM s)`). -/
def trimHyphens (l : List Char) : List Char :=
  ((l.dropWhile (· == '-')).reverse.dropWhile (· == '-')).reverse

/-- The three cleanup steps applied to the raw base slug: replace every
character outside `[a-z0-9-]` by `-`, collapse hyphen runs, trim hyphens. -/
def cleanSlug (s : String) : String :=
  String.mk (trimHyphens (squeezeHyphens
    (s.data.map fun c => if isSlugChar c then c else '-')))

/-- Candidate slugs tried by the uniqueness loop, in order: the base itself,
then `base-1`, `base-2`, ... -/
def slugCands (base : String) (k : Nat) : String :=
  if k = 0 then base else base ++ "-" ++ decRepr k

/-- The SQL `WHILE EXISTS` loop: starting at candidate index `k`, return the
first candidate not amongst the persisted slugs `taken`.  The fuel argument
is an artifact of the embedding; `slugLoop_some` shows fuel
`taken.length + 1` always suffices, mirroring the loop's termination. -/
def slugLoop (taken : List String) (base : String) : Nat → Nat → Option String
  | 0, _ => none
  | f + 1, k =>
      if slugCands base k ∈ taken then slugLoop taken base f (k + 1)
      else some (slugCands base k)

/-- Embeds the SQL function `generate_invitation_slug(invitation_type,
form_data)` against the set of persisted slugs `taken`. -/
def generate_invitation_slug (ty : InvitationType) (fd : FormData)
    (taken : List String) : Option String :=
  slugLoop taken (cleanSlug (rawBase ty fd)) (taken.length + 1) 0

/-- The first-free characterisation: `s` is the candidate at the least index
whose value is not already persisted. -/
def IsFirstFreeSlug (base : String) (taken : List String) (s : String) : Prop :=
  ∃ m, s = slugCands base m ∧ slugCands base m ∉ taken ∧
    ∀ j, j < m → slugCands base j ∈ taken

theorem slugCands_inj (base : String) : Function.Injective (slugCands base) := by
  have hlen : ∀ k : Nat, k ≠ 0 → (slugCands base k).length = base.length + 1 + (decRepr k).length := by
    intro k hk
    have hone : ("-" : String).length = 1 := rfl
    simp only [slugCands, hk, if_false, String.length_append, hone]
  intro j k h
  by_cases hj : j = 0 <;> by_cases hk : k = 0
  · omega
  · exfalso
    have h1 : (slugCands base j).length = base.length := by simp [slugCands, hj]
    have h2 := hlen k hk
    rw [h] at h1
    omega
  · exfalso
    have h1 : (slugCands base k).length = base.length := by simp [slugCands, hk]
    have h2 := hlen j hj
    rw [← h] at h1
    omega
  · simp only [slugCands, hj, hk, if_false] at h
    have hdata : (base ++ "-" ++ decRepr j).data = (base ++ "-" ++ decRepr k).data := by
      rw [h]
    rw [String.data_append, String.data_append, String.data_append,
      String.data_append, List.append_assoc, List.append_assoc] at hdata
    have h2 := List.append_cancel_left hdata
    have h3 := List.append_cancel_left h2
    have h4 : decRepr j = decRepr k := by
      cases hj' : decRepr j with
      | mk d1 => cases hk' : decRepr k with
        | mk d2 =>
          rw [hj', hk'] at h3
          simp_all
    exact decRepr_inj (Nat.one_le_iff_ne_zero.mpr hj) (Nat.one_le_iff_ne_zero.mpr hk) h4

theorem exists_free_cand (taken : List String) (base : String) :
    ∃ m, m ≤ taken.length ∧ slugCands base m ∉ taken := by
  by_contra hc
  push_neg at hc
  have hsub : (Finset.range (taken.length + 1)).image (slugCands base) ⊆ taken.toFinset := by
    intro x hx
    simp only [Finset.mem_image, Finset.mem_range] at hx
    obtain ⟨m, hm, rfl⟩ := hx
    exact List.mem_toFinset.mpr (hc m (by omega))
  have hcard := Finset.card_le_card hsub
  rw [Finset.card_image_of_injective _ (slugCands_inj base), Finset.card_range] at hcard
  have := taken.toFinset_card_le
  omega

theorem slugLoop_some (taken : List String) (base : String) :
    ∀ f k m, k ≤ m → (∀ j, k ≤ j → j < m → slugCands base j ∈ taken) →
    slugCands base m ∉ taken → m - k < f →
    slugLoop taken base f k = some (slugCands base m) := by
  intro f
  induction f with
  | zero => intro k m _ _ _ hf; omega
  | succ f ih =>
    intro k m hkm hbetween hfree hf
    by_cases hmem : slugCands base k ∈ taken
    · have hkm' : k < m := by
        rcases Nat.lt_or_ge k m with h | h
        · exact h
        · exact absurd hfree (by rw [show m = k by omega]; simp [hmem])
      simp only [slugLoop, hmem, if_true]
      exact ih (k + 1) m (by omega) (fun j h1 h2 => hbetween j (by omega) h2) hfree (by omega)
    · have : k = m := by
        rcases Nat.lt_or_ge k m with h | h
        · exact absurd (hbetween k (le_refl k) h) hmem
        · omega
      subst this
      simp [slugLoop, hmem]

theorem generate_slug_firstFree (ty : InvitationType) (fd : FormData)
    (taken : List String) :
    ∃ s, generate_invitation_slug ty fd taken = some s ∧
      IsFirstFreeSlug (cleanSlug (rawBase ty fd)) taken s := by
  set base := cleanSlug (rawBase ty fd) with hbase
  obtain ⟨m1, hm1le, hm1free⟩ := exists_free_cand taken base
  have hex : ∃ m, slugCands base m ∉ taken := ⟨m1, hm1free⟩
  set m0 := Nat.find hex with hm0
  have hfree : slugCands base m0 ∉ taken := Nat.find_spec hex
  have hmin : ∀ j, j < m0 → slugCands base j ∈ taken := by
    intro j hj
    have := Nat.find_min hex hj
    simpa using this
  have hle : m0 ≤ taken.length := le_trans (Nat.find_min' hex hm1free) hm1le
  refine ⟨slugCands base m0, ?_, ⟨m0, rfl, hfree, hmin⟩⟩
  exact slugLoop_some taken base (taken.length + 1) 0 m0 (Nat.zero_le _)
    (fun j _ hj => hmin j hj) hfree (by omega)

/-- N sequential creates with identical form data: each create invokes
`generate_invitation_slug` against the current store and persists the result. -/
def slugSeq (ty : InvitationType) (fd : FormData) :
    List String → Nat → List String
  | _, 0 => []
  | taken, n + 1 =>
      match generate_invitation_slug ty fd taken with
      | some s => s :: slugSeq ty fd (s :: taken) n
      | none => []

theorem isFirstFreeSlug_congr {base : String} {S S' : List String} {s : String}
    (h : IsFirstFreeSlug base S s) (hmem : ∀ x, x ∈ S ↔ x ∈ S') :
    IsFirstFreeSlug base S' s := by
  obtain ⟨m, rfl, hfree, hmin⟩ := h
  exact ⟨m, rfl, fun hc => hfree ((hmem _).mpr hc), fun j hj => (hmem _).mp (hmin j hj)⟩

theorem slugSeq_not_mem_taken (ty : InvitationType) (fd : FormData) :
    ∀ n taken x, x ∈ slugSeq ty fd taken n → x ∉ taken := by
  intro n
  induction n with
  | zero => intro taken x hx; simp [slugSeq] at hx
  | succ n ih =>
    intro taken x hx
    obtain ⟨s, hs, hff⟩ := generate_slug_firstFree ty fd taken
    rw [slugSeq, hs] at hx
    obtain ⟨m, rfl, hfree, _⟩ := hff
    rcases List.mem_cons.mp hx with h | h
    · subst h; exact hfree
    · intro hc
      exact ih (slugCands (cleanSlug (rawBase ty fd)) m :: taken) x h (List.mem_cons_of_mem _ hc)

theorem slugSeq_length (ty : InvitationType) (fd : FormData) :
    ∀ n taken, (slugSeq ty fd taken n).length = n := by
  intro n
  induction n with
  | zero => intro taken; rfl
  | succ n ih =>
    intro taken
    obtain ⟨s, hs, _⟩ := generate_slug_firstFree ty fd taken
    rw [slugSeq, hs]
    simp [ih]

theorem slugSeq_nodup (ty : InvitationType) (fd : FormData) :
    ∀ n taken, (slugSeq ty fd taken n).Nodup := by
  intro n
  induction n with
  | zero => intro taken; simp [slugSeq]
  | succ n ih =>
    intro taken
    obtain ⟨s, hs, _⟩ := generate_slug_firstFree ty fd taken
    rw [slugSeq, hs]
    refine List.nodup_cons.mpr ⟨?_, ih (s :: taken)⟩
    intro hc
    exact slugSeq_not_mem_taken ty fd n (s :: taken) s hc (by simp)

theorem slugSeq_firstFree (ty : InvitationType) (fd : FormData) :
    ∀ n taken k (hk : k < (slugSeq ty fd taken n).length),
      IsFirstFreeSlug (cleanSlug (rawBase ty fd))
        ((slugSeq ty fd taken n).take k ++ taken)
        ((slugSeq ty fd taken n).get ⟨k, hk⟩) := by
  intro n
  induction n with
  | zero => intro taken k hk; simp [slugSeq] at hk
  | succ n ih =>
    intro taken k hk
    obtain ⟨s, hs, hff⟩ := generate_slug_firstFree ty fd taken
    have hrw : slugSeq ty fd taken (n + 1) = s :: slugSeq ty fd (s :: taken) n := by
      rw [slugSeq, hs]
    revert hk
    rw [hrw]
    intro hk
    cases k with
    | zero => simpa using hff
    | succ k =>
      have hk' : k < (slugSeq ty fd (s :: taken) n).length := by simpa using hk
      have hprev := ih (s :: taken) k hk'
      simp only [List.take_succ_cons, List.cons_append, List.get_cons_succ]
      refine isFirstFreeSlug_congr hprev fun x => ?_
      simp only [List.mem_cons, List.mem_append]
      tauto

/-! ## Invitation data model and lifecycle (`InvitationService`) -/

/-- The invitation status enumeration (`InvitationStatus`). -/
inductive InvitationStatus where
  | draft | published | archived | expired
deriving DecidableEq

/-- A persisted invitation row (the fields of the `invitations` table the
verified operations read or write). -/
structure Invitation where
  id : String
  user_id : String
  title : String
  ty : InvitationType
  status : InvitationStatus
  form_data : FormData
  event_date : Option JsValue
  venue_name : Option JsValue
  venue_address : Option JsValue
  template_id : Option String
  template_customization : Option JsValue
  slug : String
  is_published : Bool
  published_at : Option Nat
  expires_at : Option String
  meta_title : Option String
  meta_description : Option String
  view_count : Nat
  created_at : Nat
  updated_at : Nat

/-- The JS pattern `x || null` on an optional string: keep only present,
non-empty values. -/
def truthyStr : Option String → Option String
  | some s => if s = "" then none else some s
  | none => none

/-- Body of a create request (`CreateInvitationRequest`). -/
structure CreateReq where
  title : String
  ty : InvitationType
  template_id : Option String := none
  form_data : FormData

/-- Body of an update request (`UpdateInvitationRequest`).  `reqType` models a
`type` key possibly present in the raw JSON body; `InvitationService.update`
never reads it. -/
structure UpdateReq where
  title : Option String := none
  form_data : Option FormData := none
  template_customization : Option JsValue := none
  status : Option InvitationStatus := none
  reqType : Option InvitationType := none

/-- Body of a publish request (`PublishInvitationRequest`). -/
structure PublishReq where
  expires_at : Option String := none
  meta_title : Option String := none
  meta_description : Option String := none

/-- Embeds `InvitationService.generateSlug`: the RPC result when it succeeds,
otherwise the fallback `` `${type}-invitation-${Date.now()}` ``.  The RPC
outcome (the SQL function of the previous section, or a transport failure) is
passed in as `rpc`. -/
def serviceGenerateSlug (rpc : Except Unit String) (ty : InvitationType)
    (now : Nat) : String :=
  match rpc with
  | .ok s => s
  | .error _ => typeStr ty ++ "-invitation-" ++ decRepr now

/-- Row inserted by `InvitationService.create`: draft status, unpublished,
zeroed counters, extracted derived fields, the generated slug.  `newId` and
the timestamps are assigned by the database. -/
def createRecord (rpc : Except Unit String) (newId : String) (now : Nat)
    (uid : String) (req : CreateReq) : Invitation :=
  { id := newId
    user_id := uid
    title := req.title
    ty := req.ty
    status := .draft
    form_data := req.form_data
    event_date := extractEventDate req.ty req.form_data
    venue_name := extractVenueName req.form_data
    venue_address := extractVenueAddress req.form_data
    template_id := truthyStr req.template_id
    template_customization := none
    slug := serviceGenerateSlug rpc req.ty now
    is_published := false
    published_at := none
    expires_at := none
    meta_title := none
    meta_description := none
    view_count := 0
    created_at := now
    updated_at := now }

/-- The `updateData` object built by `InvitationService.update`: each field is
`some` exactly when the corresponding key is assigned. -/
structure UpdatePatch where
  title : Option String := none
  status : Option InvitationStatus := none
  template_customization : Option JsValue := none
  form_data : Option FormData := none
  event_date : Option (Option JsValue) := none
  venue_name : Option (Option JsValue) := none
  venue_address : Option (Option JsValue) := none
  updated_at : Nat

/-- Fields of `updateData` assigned before the `form_data` branch:
`title` and `status` behind JS truthiness, `template_customization` when
present. -/
def baseUpdatePatch (req : UpdateReq) (now : Nat) : UpdatePatch :=
  { title := truthyStr req.title
    status := req.status
    template_customization := req.template_customization
    updated_at := now }

/-- The `form_data` branch of `InvitationService.update`: merge the incoming
form data into the existing record's and recompute the extracted fields using
the existing record's type. -/
def formUpdatePatch (ex : Invitation) (req : UpdateReq) (now : Nat)
    (fd : FormData) : UpdatePatch :=
  let merged := mergeObj ex.form_data fd
  { baseUpdatePatch req now with
    form_data := some merged
    event_date := some (extractEventDate ex.ty merged)
    venue_name := some (extractVenueName merged)
    venue_address := some (extractVenueAddress merged) }

/-- Apply an `updateData` object to a row, as the database `UPDATE` does:
assigned columns take the new value, all other columns are untouched. -/
def applyPatch (p : UpdatePatch) (r : Invitation) : Invitation :=
  { r with
    title := p.title.getD r.title
    status := p.status.getD r.status
    template_customization :=
      match p.template_customization with
      | some tc => some tc
      | none => r.template_customization
    form_data := p.form_data.getD r.form_data
    event_date := p.event_date.getD r.event_date
    venue_name := p.venue_name.getD r.venue_name
    venue_address := p.venue_address.getD r.venue_address
    updated_at := p.updated_at }

/-- Single-record view of `InvitationService.update` (the existing record is
the row the `(id, user_id)` filters select). -/
def updateRecord (r : Invitation) (req : UpdateReq) (now : Nat) : Invitation :=
  match req.form_data with
  | some fd => applyPatch (formUpdatePatch r req now fd) r
  | none => applyPatch (baseUpdatePatch req now) r

/-- The column assignments of `InvitationService.publish`. -/
def applyPublish (req : PublishReq) (now : Nat) (r : Invitation) : Invitation :=
  { r with
    status := .published
    is_published := true
    published_at := some now
    expires_at := truthyStr req.expires_at
    meta_title := truthyStr req.meta_title
    meta_description := truthyStr req.meta_description
    updated_at := now }

/-- The column assignments of `InvitationService.unpublish`. -/
def applyUnpublish (now : Nat) (r : Invitation) : Invitation :=
  { r with
    status := .draft
    is_published := false
    published_at := none
    updated_at := now }

/-- The spec invariant: `status = published` iff `is_published = true` and
`published_at` is non-null. -/
def StatusInv (r : Invitation) : Prop :=
  r.status = .published ↔ (r.is_published = true ∧ r.published_at ≠ none)

/-! ## Store-level service operations

The persisted table is a list of rows; the supabase filters
`.eq('id', id).eq('user_id', userId)` select the matching rows, and
`.single()` succeeds exactly when one row matches. -/

/-- The owner-scoped row filter `(id, user_id)`. -/
def rowMatch (id uid : String) (r : Invitation) : Bool :=
  r.id == id && r.user_id == uid

/-- Embeds `InvitationService.getById` with a `userId`: `PGRST116` (zero rows
from `.single()`) is mapped to `null`; any other failure is rethrown by the
catch block as "Failed to fetch invitation". -/
def serviceGetById (store : List Invitation) (id uid : String) :
    Except String (Option Invitation) :=
  match store.filter (rowMatch id uid) with
  | [r] => .ok (some r)
  | [] => .ok none
  | _ => .error "Failed to fetch invitation"

/-- A database `UPDATE ... WHERE id = ... AND user_id = ...`: the transform is
applied to every matching row, all other rows are untouched. -/
def dbUpdateRows (store : List Invitation) (id uid : String)
    (f : Invitation → Invitation) : List Invitation :=
  store.map fun r => if rowMatch id uid r then f r else r

/-- Result of `.update(...).eq(id).eq(user_id).select().single()`: the updated
row when exactly one matched, an error otherwise. -/
def singleUpdated (store : List Invitation) (id uid : String)
    (f : Invitation → Invitation) (errMsg : String) : Except String Invitation :=
  match store.filter (rowMatch id uid) with
  | [r] => .ok (f r)
  | _ => .error errMsg

/-- Embeds `InvitationService.update` at store level.  When `form_data` is
present, the existing record is fetched (errors become "Failed to update
invitation" through the catch block) and the merge patch built from it;
otherwise only title/status/customization are patched. -/
def serviceUpdate (store : List Invitation) (id uid : String) (req : UpdateReq)
    (now : Nat) : Except String Invitation × List Invitation :=
  match req.form_data with
  | none =>
      let f := applyPatch (baseUpdatePatch req now)
      (singleUpdated store id uid f "Failed to update invitation",
       dbUpdateRows store id uid f)
  | some fd =>
      match serviceGetById store id uid with
      | .ok (some ex) =>
          let f := applyPatch (formUpdatePatch ex req now fd)
          (singleUpdated store id uid f "Failed to update invitation",
           dbUpdateRows store id uid f)
      | _ => (.error "Failed to update invitation", store)

/-- Embeds `InvitationService.publish` at store level. -/
def servicePublish (store : List Invitation) (id uid : String)
    (req : PublishReq) (now : Nat) : Except String Invitation × List Invitation :=
  (singleUpdated store id uid (applyPublish req now) "Failed to publish invitation",
   dbUpdateRows store id uid (applyPublish req now))

/-- Embeds `InvitationService.unpublish` at store level. -/
def serviceUnpublish (store : List Invitation) (id uid : String) (now : Nat) :
    Except String Invitation × List Invitation :=
  (singleUpdated store id uid (applyUnpublish now) "Failed to unpublish invitation",
   dbUpdateRows store id uid (applyUnpublish now))

/-- Embeds `InvitationService.delete`: delete every row matching
`(id, user_id)`; deleting zero rows is not an error. -/
def serviceDelete (store : List Invitation) (id uid : String) : List Invitation :=
  store.filter fun r => !(rowMatch id uid r)

/-- Embeds `InvitationService.create` at store level: build the row and insert
it (id and timestamps come from the database). -/
def serviceCreate (rpc : Except Unit String) (newId : String) (now : Nat)
    (uid : String) (req : CreateReq) (store : List Invitation) :
    Invitation × List Invitation :=
  let r := createRecord rpc newId now uid req
  (r, store ++ [r])

/-- Options of `InvitationService.list`. -/
structure ListOpts where
  page : Nat := 1
  limit : Nat := 10
  ty : Option InvitationType := none
  status : Option InvitationStatus := none
  search : Option String := none

/-- Case-insensitive substring test, modelling the SQL `ilike '%needle%'`. -/
def strContainsCI (hay needle : String) : Bool :=
  (hay.data.map Char.toLower).tails.any fun t =>
    (needle.data.map Char.toLower).isPrefixOf t

/-- The `.or('title.ilike.%s%,venue_name.ilike.%s%')` search filter; a SQL
`NULL` venue never matches. -/
def searchMatch (s : String) (r : Invitation) : Bool :=
  strContainsCI r.title s ||
    (match r.venue_name with
     | some (.str vn) => strContainsCI vn s
     | _ => false)

/-- The conjunction of the list query's filters. -/
def listFilter (uid : String) (opts : ListOpts) (r : Invitation) : Bool :=
  r.user_id == uid &&
  (match opts.ty with | some t => r.ty == t | none => true) &&
  (match opts.status with | some st => r.status == st | none => true) &&
  (match opts.search with | some s => searchMatch s r | none => true)

/-- Insertion step of the `order('updated_at', descending)` sort. -/
def insertDesc (x : Invitation) : List Invitation → List Invitation
  | [] => [x]
  | y :: ys => if y.updated_at ≤ x.updated_at then x :: y :: ys else y :: insertDesc x ys

/-- Sort rows by `updated_at` descending. -/
def sortDesc (l : List Invitation) : List Invitation :=
  l.foldr insertDesc []

/-- Response shape of `InvitationService.list`. -/
structure ListResult where
  invitations : List Invitation
  total : Nat
  page : Nat
  limit : Nat
  has_more : Bool

/-- Embeds `InvitationService.list`: filter by owner and options, order by
`updated_at` descending, window `range(offset, offset + limit - 1)`. -/
def serviceList (store : List Invitation) (uid : String) (opts : ListOpts) :
    ListResult :=
  let filtered := store.filter (listFilter uid opts)
  let offset := (opts.page - 1) * opts.limit
  { invitations := ((sortDesc filtered).drop offset).take opts.limit
    total := filtered.length
    page := opts.page
    limit := opts.limit
    has_more := decide (filtered.length > offset + opts.limit) }

/-! ## Controller layer (`InvitationController`) -/

/-- The JSON envelope together with the HTTP status code it is sent with. -/
structure HttpResp (α : Type) where
  status : Nat
  success : Bool
  data : Option α
  error : Option String

/-- The controllers' 404 response. -/
def notFoundResp : HttpResp Invitation :=
  { status := 404, success := false, data := none, error := some "Invitation not found" }

/-- The controllers' 500 response. -/
def serverErrorResp : HttpResp Invitation :=
  { status := 500, success := false, data := none, error := some "Internal server error" }

/-- Embeds `InvitationController.getById`: a service success is sent as 200
with the (possibly null) row; a service failure lands in the catch block and
is sent as 404. -/
def controllerGetById (store : List Invitation) (id uid : String) :
    HttpResp Invitation :=
  match serviceGetById store id uid with
  | .ok inv => { status := 200, success := true, data := inv, error := none }
  | .error _ => notFoundResp

/-- Embeds `InvitationController.delete`: the service delete never reports a
missing row, so the controller answers 204 and the matching rows are gone. -/
def controllerDelete (store : List Invitation) (id uid : String) :
    HttpResp Invitation × List Invitation :=
  ({ status := 204, success := true, data := none, error := none },
   serviceDelete store id uid)

/-- Dispatch on the outcome of `InvitationService.update` as the controller's
catch blocks do. -/
def updateRespOf (out : Except String Invitation × List Invitation) :
    HttpResp Invitation × List Invitation :=
  match out with
  | (.ok inv, store') =>
      ({ status := 200, success := true, data := some inv, error := none }, store')
  | (.error msg, store') =>
      (if msg = "Invitation not found" then notFoundResp else serverErrorResp, store')

/-- Embeds `InvitationController.update`: when the body carries `form_data`,
the current record is fetched and its own type drives validation (404 when it
is missing, 400 on a validation failure); then the service update runs. -/
def controllerUpdate (dateOk : JsValue → Bool) (store : List Invitation)
    (id uid : String) (req : UpdateReq) (now : Nat) :
    HttpResp Invitation × List Invitation :=
  match req.form_data with
  | some fd =>
      match serviceGetById store id uid with
      | .error _ => (notFoundResp, store)
      | .ok none => (notFoundResp, store)
      | .ok (some cur) =>
          if (validateInvitationData dateOk cur.ty fd).isValid then
            updateRespOf (serviceUpdate store id uid req now)
          else
            ({ status := 400, success := false, data := none,
               error := some ((validateInvitationData dateOk cur.ty fd).errors.intersperse ", " |>.foldl (· ++ ·) "") }, store)
  | none => updateRespOf (serviceUpdate store id uid req now)

/-- Embeds `InvitationController.publish`: the controller invokes
`InvitationService.publish(id, user_id)` without forwarding the request body,
so the service runs with the default empty `PublishInvitationRequest`. -/
def controllerPublish (store : List Invitation) (id uid : String)
    (_req : PublishReq) (now : Nat) : HttpResp Invitation × List Invitation :=
  match servicePublish store id uid {} now with
  | (.ok inv, store') =>
      ({ status := 200, success := true, data := some inv, error := none }, store')
  | (.error msg, store') =>
      (if msg = "Invitation not found" then notFoundResp else serverErrorResp, store')

/-! ## Referral codes (`helpers.generateReferralCode`,
`ResellerService.createReseller`) -/

/-- The referral-code alphabet `'ABCDEFGHIJKLMNOPQRSTUVWXYZ0123456789'`. -/
def refAlphabet : List Char :=
  "ABCDEFGHIJKLMNOPQRSTUVWXYZ0123456789".data

theorem refAlphabet_length : refAlphabet.length = 36 := rfl

/-- One draw `chars.charAt(Math.floor(Math.random() * chars.length))`: since
`Math.random()` lies in `[0, 1)`, the index is a genuine position of the
36-character alphabet, modelled as `Fin 36`. -/
def refCodeChar (d : Fin 36) : Char :=
  refAlphabet.get (Fin.cast refAlphabet_length.symm d)

/-- Embeds `generateReferralCode(length)`, with the random draws supplied as a
stream. -/
def generateReferralCode (draws : Nat → Fin 36) (length : Nat) : String :=
  String.mk ((List.range length).map fun i => refCodeChar (draws i))

/-- The code produced by the k-th iteration of the reseller creation loop
(each iteration consumes 8 fresh draws). -/
def drawnCode (draws : Nat → Fin 36) (k : Nat) : String :=
  generateReferralCode (fun i => draws (8 * k + i)) 8

/-- The collision-retry loop of `ResellerService.createReseller`: iteration
`k` (zero-based) generates a code, checks it against the existing codes,
increments `attempts` to `k + 1` and throws once `attempts > 10` — before the
uniqueness test of the final iteration is acted on, exactly as in the source.
The fuel is an embedding artifact; `12` is beyond the throw threshold. -/
def refCodeLoop (existing : List String) (draws : Nat → Fin 36) :
    Nat → Nat → Except String String
  | 0, _ => .error "Failed to generate unique referral code"
  | f + 1, k =>
      let code := drawnCode draws k
      let isUnique := !(existing.contains code)
      if k + 1 > 10 then .error "Failed to generate unique referral code"
      else if isUnique then .ok code
      else refCodeLoop existing draws f (k + 1)

/-- Embeds the referral-code phase of `ResellerService.createReseller`:
`userIsReseller` is the outcome of the "already a reseller" pre-check, and the
result is the referral code assigned to the new reseller row. -/
def createReseller (userIsReseller : Bool) (existing : List String)
    (draws : Nat → Fin 36) : Except String String :=
  if userIsReseller then .error "User is already a reseller"
  else refCodeLoop existing draws 12 0

/-! ## Lemmas about shallow merge -/

theorem jget_append (x y : FormData) (k : String) :
    jget (x ++ y) k = match jget x k with
      | some v => some v
      | none => jget y k := by
  induction x with
  | nil => rfl
  | cons hd tl ih =>
    obtain ⟨k1, v1⟩ := hd
    by_cases hk : k1 = k
    · subst hk
      simp [jget, List.cons_append]
    · simpa [jget, List.cons_append, hk] using ih

theorem jget_mapOverride (a b : FormData) (k : String) :
    jget (a.map fun kv => match jget b kv.1 with
      | some v => (kv.1, v)
      | none => kv) k =
    match jget a k with
    | some v0 => some ((jget b k).getD v0)
    | none => none := by
  induction a with
  | nil => rfl
  | cons hd tl ih =>
    obtain ⟨k1, v1⟩ := hd
    by_cases hk : k1 = k
    · subst hk
      cases hb : jget b k1 <;> simp [jget, hb]
    · cases hb : jget b k1 <;> simpa [jget, hb, hk] using ih

theorem jget_filterFresh (a b : FormData) (k : String) (h : jget a k = none) :
    jget (b.filter fun kv => (jget a kv.1).isNone) k = jget b k := by
  induction b with
  | nil => rfl
  | cons hd tl ih =>
    obtain ⟨k1, v1⟩ := hd
    by_cases hk : k1 = k
    · subst hk
      simp [List.filter_cons, h, jget]
    · by_cases hkeep : (jget a k1).isNone <;>
        simp_all [List.filter_cons, jget, hk]

theorem jget_mergeObj_override (a b : FormData) (k : String) (v : JsValue)
    (h : jget b k = some v) : jget (mergeObj a b) k = some v := by
  unfold mergeObj
  rw [jget_append, jget_mapOverride]
  cases ha : jget a k with
  | some v0 => simp [h]
  | none => rw [jget_filterFresh a b k ha, h]

theorem jget_mergeObj_preserve (a b : FormData) (k : String)
    (h : jget b k = none) : jget (mergeObj a b) k = jget a k := by
  unfold mergeObj
  rw [jget_append, jget_mapOverride]
  cases ha : jget a k with
  | some v0 => simp [h]
  | none => rw [jget_filterFresh a b k ha, h]

/-! ## Further helper lemmas -/

theorem mem_insertDesc (x a : Invitation) (l : List Invitation) :
    a ∈ insertDesc x l ↔ a = x ∨ a ∈ l := by
  induction l with
  | nil => simp [insertDesc]
  | cons y ys ih =>
    by_cases h : y.updated_at ≤ x.updated_at
    · simp [insertDesc, h]
    · simp only [insertDesc, h, if_false, List.mem_cons, ih]
      tauto

theorem mem_sortDesc (a : Invitation) (l : List Invitation) :
    a ∈ sortDesc l ↔ a ∈ l := by
  induction l with
  | nil => simp [sortDesc]
  | cons y ys ih =>
    simp only [sortDesc, List.foldr] at ih ⊢
    rw [mem_insertDesc, ih, List.mem_cons]

theorem rowMatch_user (id uid : String) (r : Invitation)
    (h : rowMatch id uid r = true) : r.user_id = uid := by
  simp only [rowMatch, Bool.and_eq_true, beq_iff_eq] at h
  exact h.2

/-- Sample wedding payload of the spec's worked example. -/
def sampleFormData : FormData :=
  [("brideName", .str "Sarah"), ("groomName", .str "John"),
   ("eventDate", .str "2024-08-15T16:00:00Z"), ("venueName", .str "Grand Ballroom")]

/-- A sample persisted invitation: the create of the worked example. -/
def sampleInv : Invitation :=
  createRecord (.ok "sarah-john-wedding") "i1" 1000 "u1"
    { title := "Sarah & John Wedding", ty := .wedding, form_data := sampleFormData }

/-! ## Claim C1 -/

/-- C1 counterexample: a freshly created draft updated with a request body
carrying `status: "published"` ends with `status = published` but
`is_published = false` (and `published_at` null) — `InvitationService.update`
copies `data.status` into `updateData` without touching the publishing
metadata, so the claimed invariant is not preserved by `update`. -/
theorem c1_update_status_breaks_invariant :
    (updateRecord (createRecord (.ok "s") "i1" 1 "u1"
        { title := "t", ty := .wedding, form_data := [] })
      { status := some .published } 2).status = InvitationStatus.published ∧
    (updateRecord (createRecord (.ok "s") "i1" 1 "u1"
        { title := "t", ty := .wedding, form_data := [] })
      { status := some .published } 2).is_published = false ∧
    (updateRecord (createRecord (.ok "s") "i1" 1 "u1"
        { title := "t", ty := .wedding, form_data := [] })
      { status := some .published } 2).published_at = none := by
  refine ⟨rfl, rfl, rfl⟩

/-- C1 (amended): the invariant `status = published ↔ is_published = true ∧
published_at ≠ null` is established by create, publish and unpublish, and is
preserved by update provided the request body carries no `status` field; an
update whose body carries a status can break it (see the counterexample). -/
theorem c1_status_invariant_amended :
    (∀ rpc newId now uid req, StatusInv (createRecord rpc newId now uid req)) ∧
    (∀ req now r, StatusInv (applyPublish req now r)) ∧
    (∀ now r, StatusInv (applyUnpublish now r)) ∧
    (∀ req now r, req.status = none → StatusInv r →
      StatusInv (updateRecord r req now)) := by
  refine ⟨?_, ?_, ?_, ?_⟩
  · intro rpc newId now uid req
    simp [StatusInv, createRecord]
  · intro req now r
    simp [StatusInv, applyPublish]
  · intro now r
    simp [StatusInv, applyUnpublish]
  · intro req now r hst hinv
    cases hfd : req.form_data with
    | none =>
      simpa [StatusInv, updateRecord, hfd, applyPatch, baseUpdatePatch, hst]
        using hinv
    | some fd =>
      simpa [StatusInv, updateRecord, hfd, applyPatch, formUpdatePatch,
        baseUpdatePatch, hst] using hinv

/-- C1 witness: a concrete use of the amended invariant — a title-only update
of the sample invitation keeps the invariant. -/
theorem c1_status_invariant_witness :
    StatusInv (updateRecord sampleInv { title := some "New Title" } 2000) :=
  c1_status_invariant_amended.2.2.2 { title := some "New Title" } 2000 sampleInv
    rfl (c1_status_invariant_amended.1 (.ok "sarah-john-wedding") "i1" 1000 "u1"
      { title := "Sarah & John Wedding", ty := .wedding, form_data := sampleFormData })

/-! ## Claim C10 -/

/-- C10: an update of an existing owned invitation never changes its category
or slug (even when the raw body carries a `type` key — neither the service nor
the controller reads it: both are insensitive to it), stores the shallow merge
of the existing and incoming `form_data`, re-runs extraction on the merged
data using the existing record's category, and the controller re-runs the
Schema Validator against the category of the existing record — the endpoint
accepts or rejects (400) exactly by the existing record's category's verdict;
the final two conjuncts state the merge semantics: incoming keys override,
keys absent from the update are preserved. -/
theorem c10_update_frame (dateOk : JsValue → Bool) (store : List Invitation)
    (id uid : String) (ex : Invitation) (req : UpdateReq) (now : Nat)
    (h : store.filter (rowMatch id uid) = [ex]) :
    ∃ r', (serviceUpdate store id uid req now).1 = .ok r' ∧
      r'.ty = ex.ty ∧ r'.slug = ex.slug ∧
      (req.form_data = none → r'.form_data = ex.form_data) ∧
      (∀ fd, req.form_data = some fd →
        r'.form_data = mergeObj ex.form_data fd ∧
        r'.event_date = extractEventDate ex.ty (mergeObj ex.form_data fd) ∧
        r'.venue_name = extractVenueName (mergeObj ex.form_data fd) ∧
        r'.venue_address = extractVenueAddress (mergeObj ex.form_data fd)) ∧
      (∀ fd, req.form_data = some fd →
        ((validateInvitationData dateOk ex.ty fd).isValid = false →
          (controllerUpdate dateOk store id uid req now).1.status = 400 ∧
          (controllerUpdate dateOk store id uid req now).2 = store) ∧
        ((validateInvitationData dateOk ex.ty fd).isValid = true →
          (controllerUpdate dateOk store id uid req now).1.status = 200 ∧
          (controllerUpdate dateOk store id uid req now).1.data = some r')) ∧
      (∀ t, (serviceUpdate store id uid { req with reqType := t } now).1 = .ok r') ∧
      (∀ t, controllerUpdate dateOk store id uid { req with reqType := t } now =
        controllerUpdate dateOk store id uid req now) ∧
      (∀ a b k v, jget b k = some v → jget (mergeObj a b) k = some v) ∧
      (∀ a b k, jget b k = none → jget (mergeObj a b) k = jget a k) := by
  cases hfd : req.form_data with
  | none =>
    refine ⟨applyPatch (baseUpdatePatch req now) ex, ?_, rfl, rfl, ?_, ?_, ?_, ?_, ?_,
      jget_mergeObj_override, jget_mergeObj_preserve⟩
    · simp [serviceUpdate, hfd, singleUpdated, h]
    · intro _; rfl
    · intro fd hfd'; exact Option.noConfusion hfd'
    · intro fd hfd'; exact Option.noConfusion hfd'
    · intro t
      simp [serviceUpdate, hfd, singleUpdated, h, baseUpdatePatch]
    · intro t
      simp [controllerUpdate, hfd, updateRespOf, serviceUpdate, singleUpdated, h,
        baseUpdatePatch]
  | some fd =>
    refine ⟨applyPatch (formUpdatePatch ex req now fd) ex, ?_, rfl, rfl, ?_, ?_, ?_, ?_, ?_,
      jget_mergeObj_override, jget_mergeObj_preserve⟩
    · simp [serviceUpdate, hfd, serviceGetById, h, singleUpdated]
    · intro hc; exact Option.noConfusion hc
    · intro fd' hfd'
      cases hfd'
      exact ⟨rfl, rfl, rfl, rfl⟩
    · intro fd' hfd'
      cases hfd'
      constructor
      · intro hv
        constructor <;>
          simp [controllerUpdate, hfd, serviceGetById, h, hv]
      · intro hv
        constructor <;>
          simp [controllerUpdate, hfd, serviceGetById, h, hv, updateRespOf,
            serviceUpdate, singleUpdated]
    · intro t
      simp [serviceUpdate, hfd, serviceGetById, h, singleUpdated,
        formUpdatePatch, baseUpdatePatch]
    · intro t
      simp [controllerUpdate, hfd, serviceGetById, h, updateRespOf, serviceUpdate,
        singleUpdated, formUpdatePatch, baseUpdatePatch]

/-- C10 witness: a concrete venue-only update of the sample invitation keeps
its category and slug, and a bad `eventDate` in the incoming form data is
rejected with 400 by the validator running against the existing wedding
record's category. -/
theorem c10_update_frame_witness :
    (∃ r', (serviceUpdate [sampleInv] "i1" "u1"
        { form_data := some [("venueName", JsValue.str "Sky Hall")] } 2000).1 = .ok r' ∧
      r'.ty = sampleInv.ty ∧ r'.slug = sampleInv.slug) ∧
    (controllerUpdate (fun _ => false) [sampleInv] "i1" "u1"
      { form_data := some [("eventDate", JsValue.str "bad-date")] } 2000).1.status = 400 := by
  constructor
  · obtain ⟨r', h1, h2, h3, _⟩ :=
      c10_update_frame (fun _ => false) [sampleInv] "i1" "u1" sampleInv
        { form_data := some [("venueName", JsValue.str "Sky Hall")] } 2000 rfl
    exact ⟨r', h1, h2, h3⟩
  · obtain ⟨r', _, _, _, _, _, h6, _⟩ :=
      c10_update_frame (fun _ => false) [sampleInv] "i1" "u1" sampleInv
        { form_data := some [("eventDate", JsValue.str "bad-date")] } 2000 rfl
    exact ((h6 _ rfl).1 (by decide)).1

/-! ## Claim C3 -/

/-- C3 counterexample: publishing the sample invitation with a request body
carrying `expires_at` and `meta_title` stores `null` for both —
`InvitationController.publish` calls `InvitationService.publish(id, user_id)`
without forwarding the body, so the service runs with the default empty
request and `data.expires_at || null` is `null`. -/
theorem c3_publish_body_dropped :
    (controllerPublish [sampleInv] "i1" "u1"
      { expires_at := some "2030-01-01T00:00:00Z", meta_title := some "Our Wedding" }
      2000).1.status = 200 ∧
    ((controllerPublish [sampleInv] "i1" "u1"
      { expires_at := some "2030-01-01T00:00:00Z", meta_title := some "Our Wedding" }
      2000).1.data.map Invitation.expires_at) = some none ∧
    ((controllerPublish [sampleInv] "i1" "u1"
      { expires_at := some "2030-01-01T00:00:00Z", meta_title := some "Our Wedding" }
      2000).1.data.map Invitation.meta_title) = some none := by
  refine ⟨rfl, rfl, rfl⟩

/-- C3 (amended): publishing an existing owned invitation through the HTTP
endpoint sets `is_published = true`, `status = published` and
`published_at = now`, but caller-supplied `expires_at`/meta fields are never
recorded: the controller does not forward the request body, so those columns
are always set to null; the response is also independent of the body. -/
theorem c3_publish_amended (store : List Invitation) (id uid : String)
    (ex : Invitation) (req : PublishReq) (now : Nat)
    (h : store.filter (rowMatch id uid) = [ex]) :
    (controllerPublish store id uid req now).1.status = 200 ∧
    (controllerPublish store id uid req now).1.data = some (applyPublish {} now ex) ∧
    (applyPublish {} now ex).is_published = true ∧
    (applyPublish {} now ex).status = .published ∧
    (applyPublish {} now ex).published_at = some now ∧
    (applyPublish {} now ex).expires_at = none ∧
    (applyPublish {} now ex).meta_title = none ∧
    (applyPublish {} now ex).meta_description = none ∧
    controllerPublish store id uid req now = controllerPublish store id uid {} now := by
  refine ⟨?_, ?_, rfl, rfl, rfl, rfl, rfl, rfl, rfl⟩ <;>
    simp [controllerPublish, servicePublish, singleUpdated, h]

/-- C3 witness: the amended publish behaviour at the sample invitation. -/
theorem c3_publish_amended_witness :
    (controllerPublish [sampleInv] "i1" "u1" { meta_title := some "T" } 2000).1.status = 200 ∧
    (applyPublish {} 2000 sampleInv).is_published = true ∧
    (applyPublish {} 2000 sampleInv).published_at = some 2000 := by
  obtain ⟨h1, _, h3, _, h5, _⟩ :=
    c3_publish_amended [sampleInv] "i1" "u1" sampleInv { meta_title := some "T" } 2000 rfl
  exact ⟨h1, h3, h5⟩

/-! ## Claim C2 -/

theorem rowMatch_false_of_ne_user (id uid : String) (r : Invitation)
    (h : r.user_id ≠ uid) : rowMatch id uid r = false := by
  simp only [rowMatch, Bool.and_eq_false_iff]
  right
  simpa using h

theorem filter_rowMatch_nil (store : List Invitation) (id uid : String)
    (hno : ∀ r ∈ store, rowMatch id uid r = false) :
    store.filter (rowMatch id uid) = [] := by
  induction store with
  | nil => rfl
  | cons a t ih =>
    rw [List.filter_cons]
    simp only [hno a (by simp), if_false]
    exact ih fun r hr => hno r (by simp [hr])

theorem mem_dbUpdateRows_of_notMatch (store : List Invitation) (id uid : String)
    (f : Invitation → Invitation) (r : Invitation) (hr : r ∈ store)
    (hm : rowMatch id uid r = false) : r ∈ dbUpdateRows store id uid f := by
  have := List.mem_map_of_mem (fun x => if rowMatch id uid x then f x else x) hr
  simpa [dbUpdateRows, hm] using this

theorem listFilter_user (uid : String) (opts : ListOpts) (r : Invitation)
    (h : listFilter uid opts r = true) : r.user_id = uid := by
  simp only [listFilter, Bool.and_eq_true, beq_iff_eq] at h
  exact h.1.1.1

/-- C2 counterexample: with a store holding only an invitation of user `u1`,
user `u2` requesting it by id receives HTTP 200 with `data: null` (the
controller serialises the service's `null` without a not-found check), and
delete answers 204 — not the 404 the claim requires. -/
theorem c2_ownership_status_counterexample :
    (controllerGetById [sampleInv] "i1" "u2").status = 200 ∧
    (controllerGetById [sampleInv] "i1" "u2").success = true ∧
    (controllerGetById [sampleInv] "i1" "u2").data.isNone = true ∧
    (controllerDelete [sampleInv] "i1" "u2").1.status = 204 := by
  refine ⟨rfl, rfl, rfl, rfl⟩

/-- C2 (amended): owner-scoped operations never leak or mutate another user's
invitation — get-by-id only ever returns a row owned by the caller, delete and
update leave every row of other users untouched, and list returns only the
caller's rows — but the HTTP outcome for a non-owned id is not uniformly 404:
get-by-id answers 200 with null data, delete answers 204, and update answers
404 only when the body carries `form_data` (500 otherwise). -/
theorem c2_ownership_isolation (dateOk : JsValue → Bool) (store : List Invitation)
    (id uid : String) (req : UpdateReq) (opts : ListOpts) (now : Nat) :
    (∀ r, (controllerGetById store id uid).data = some r → r.user_id = uid) ∧
    (∀ r, r ∈ store → r.user_id ≠ uid → r ∈ (controllerDelete store id uid).2) ∧
    (∀ r, r ∈ store → r.user_id ≠ uid →
      r ∈ (controllerUpdate dateOk store id uid req now).2) ∧
    (∀ r, r ∈ (serviceList store uid opts).invitations → r.user_id = uid) ∧
    ((∀ r, r ∈ store → rowMatch id uid r = false) →
      (controllerGetById store id uid).status = 200 ∧
      (controllerGetById store id uid).data = none ∧
      (controllerDelete store id uid).1.status = 204 ∧
      (∀ fd, req.form_data = some fd →
        (controllerUpdate dateOk store id uid req now).1.status = 404) ∧
      (req.form_data = none →
        (controllerUpdate dateOk store id uid req now).1.status = 500)) := by
  refine ⟨?_, ?_, ?_, ?_, ?_⟩
  · intro r hr
    rcases hf : store.filter (rowMatch id uid) with _ | ⟨a, _ | ⟨b, rest⟩⟩ <;>
      simp [controllerGetById, serviceGetById, hf, notFoundResp] at hr
    have ha : a ∈ store.filter (rowMatch id uid) := by rw [hf]; simp
    rw [← hr]
    exact rowMatch_user id uid a (List.of_mem_filter ha)
  · intro r hr huser
    exact List.mem_filter.mpr ⟨hr, by simp [rowMatch_false_of_ne_user id uid r huser]⟩
  · intro r hr huser
    have hm := rowMatch_false_of_ne_user id uid r huser
    cases hfd : req.form_data with
    | none =>
      simp only [controllerUpdate, hfd, updateRespOf, serviceUpdate]
      rcases singleUpdated store id uid (applyPatch (baseUpdatePatch req now))
          "Failed to update invitation" with e | inv <;>
        exact mem_dbUpdateRows_of_notMatch store id uid _ r hr hm
    | some fd =>
      simp only [controllerUpdate, hfd]
      rcases hg : serviceGetById store id uid with e | inv
      · exact hr
      · cases inv with
        | none => exact hr
        | some cur =>
          by_cases hv : (validateInvitationData dateOk cur.ty fd).isValid
          · simp only [hv, if_true, updateRespOf, serviceUpdate, hfd, hg]
            rcases singleUpdated store id uid
                (applyPatch (formUpdatePatch cur req now fd))
                "Failed to update invitation" with e | inv2 <;>
              exact mem_dbUpdateRows_of_notMatch store id uid _ r hr hm
          · simp only [hv, if_false]
            exact hr
  · intro r hr
    have h1 : r ∈ (sortDesc (store.filter (listFilter uid opts))).drop
        ((opts.page - 1) * opts.limit) := List.take_subset _ _ hr
    have h2 := List.drop_subset _ _ h1
    have h3 := (mem_sortDesc r _).mp h2
    exact listFilter_user uid opts r (List.of_mem_filter h3)
  · intro hno
    have hf := filter_rowMatch_nil store id uid hno
    refine ⟨?_, ?_, rfl, ?_, ?_⟩
    · simp [controllerGetById, serviceGetById, hf]
    · simp [controllerGetById, serviceGetById, hf]
    · intro fd hfd
      simp [controllerUpdate, hfd, serviceGetById, hf, notFoundResp]
    · intro hfd
      simp [controllerUpdate, hfd, updateRespOf, serviceUpdate, singleUpdated,
        hf, serverErrorResp]

/-- C2 witness: user `u2` updating user `u1`'s invitation: the row is
untouched and, with `form_data` absent, the endpoint answers 500. -/
theorem c2_ownership_isolation_witness :
    sampleInv ∈ (controllerUpdate (fun _ => true) [sampleInv] "i1" "u2"
      { title := some "hijack" } 2000).2 ∧
    (controllerUpdate (fun _ => true) [sampleInv] "i1" "u2"
      { title := some "hijack" } 2000).1.status = 500 := by
  have h := c2_ownership_isolation (fun _ => true) [sampleInv] "i1" "u2"
    { title := some "hijack" } {} 2000
  exact ⟨h.2.2.1 sampleInv (by simp) (by decide),
    (h.2.2.2.2 (by intro r hr; simp at hr; subst hr; decide)).2.2.2.2 rfl⟩

/-! ## Claim C4 -/

/-- C4 counterexample: a wedding payload whose `eventDate` is present with an
empty-string value passes validation without any error — the guard
`data.eventDate && !isValidDate(...)` skips falsy values — while a non-date
string in the same position is rejected; the three kinds of bad input are not
rejected identically. -/
theorem c4_empty_date_not_rejected :
    validateInvitationData (fun _ => false) .wedding [("eventDate", JsValue.str "")] =
      { isValid := true, errors := [] } ∧
    (validateInvitationData (fun _ => false) .wedding
      [("eventDate", JsValue.str "not-a-date")]).isValid = false := by
  refine ⟨rfl, rfl⟩

/-- C4 (amended): for every category's date-typed field, a present value that
is truthy and fails the `Date` parse (non-date strings, malformed ISO inputs)
is rejected, but a field present with an empty-string value is skipped as if
absent and produces no error — empty strings are not rejected. -/
theorem c4_date_validation_amended (dateOk : JsValue → Bool) :
    (∀ fd v, jget fd "eventDate" = some v → truthy v = true → dateOk v = false →
      (validateInvitationData dateOk .wedding fd).isValid = false) ∧
    (∀ fd v, jget fd "eventDate" = some v → truthy v = true → dateOk v = false →
      (validateInvitationData dateOk .business fd).isValid = false) ∧
    (∀ fd v, jget fd "partyDate" = some v → truthy v = true → dateOk v = false →
      (validateInvitationData dateOk .birthday fd).isValid = false) ∧
    (∀ fd v, jget fd "partyDate" = some v → truthy v = true → dateOk v = false →
      (validateInvitationData dateOk .baby_shower fd).isValid = false) ∧
    (∀ fd v, jget fd "dueDate" = some v → truthy v = true → dateOk v = false →
      (validateInvitationData dateOk .baby_shower fd).isValid = false) ∧
    (∀ fd v, jget fd "graduationDate" = some v → truthy v = true → dateOk v = false →
      (validateInvitationData dateOk .graduation fd).isValid = false) ∧
    (validateInvitationData dateOk .wedding [("eventDate", JsValue.str "")]).isValid = true ∧
    (validateInvitationData dateOk .business [("eventDate", JsValue.str "")]).isValid = true ∧
    (validateInvitationData dateOk .birthday [("partyDate", JsValue.str "")]).isValid = true ∧
    (validateInvitationData dateOk .baby_shower [("partyDate", JsValue.str "")]).isValid = true ∧
    (validateInvitationData dateOk .baby_shower [("dueDate", JsValue.str "")]).isValid = true ∧
    (validateInvitationData dateOk .graduation [("graduationDate", JsValue.str "")]).isValid = true := by
  refine ⟨?_, ?_, ?_, ?_, ?_, ?_, rfl, rfl, rfl, rfl, rfl, rfl⟩ <;>
  · intro fd v hget htr hdok
    simp [validateInvitationData, validateWeddingData, validateBusinessData,
      validateBirthdayData, validateBabyShowerData, validateGraduationData,
      mkResult, jcheck, hget, htr, hdok, List.isEmpty_iff, List.append_eq_nil]

/-- C4 witness: a concrete truthy non-date `eventDate` value is rejected for
the wedding category. -/
theorem c4_date_validation_witness :
    (validateInvitationData (fun _ => false) .wedding
      [("eventDate", JsValue.str "zzz")]).isValid = false :=
  (c4_date_validation_amended (fun _ => false)).1
    [("eventDate", JsValue.str "zzz")] (JsValue.str "zzz") rfl rfl rfl

/-! ## Claim C5 -/

/-- Spec-side shape predicate (the per-category field table of §4.1): a field
that is present must be a string. -/
def fieldStrOk (fd : FormData) (k : String) : Bool :=
  match jget fd k with
  | some v => isStr v
  | none => true

/-- Spec-side: a field that is present must be a valid date. -/
def fieldDateOk (dateOk : JsValue → Bool) (fd : FormData) (k : String) : Bool :=
  match jget fd k with
  | some v => dateOk v
  | none => true

/-- Spec-side: a field that is present must be a number `≥ 0`. -/
def fieldNumNonnegOk (fd : FormData) (k : String) : Bool :=
  match jget fd k with
  | some (.num n) => decide (0 ≤ n)
  | some _ => false
  | none => true

/-- Spec-side: a field that is present must be an array. -/
def fieldArrOk (fd : FormData) (k : String) : Bool :=
  match jget fd k with
  | some v => isArr v
  | none => true

/-- Spec-side: a present gender must be one of boy/girl/surprise. -/
def fieldGenderOk (fd : FormData) (k : String) : Bool :=
  match jget fd k with
  | some (.str s) => s == "boy" || s == "girl" || s == "surprise"
  | some _ => false
  | none => true

/-- Spec-side predicate following the §4.1 table: every present field of the
payload matches its declared shape for the category (the table declares no
fields for anniversary and party). -/
def specShapeOk (dateOk : JsValue → Bool) (ty : InvitationType) (fd : FormData) : Bool :=
  match ty with
  | .wedding =>
      fieldStrOk fd "groomName" && fieldStrOk fd "brideName" &&
      fieldStrOk fd "venueName" && fieldDateOk dateOk fd "eventDate"
  | .birthday =>
      fieldStrOk fd "celebrantName" && fieldNumNonnegOk fd "age" &&
      fieldDateOk dateOk fd "partyDate"
  | .graduation =>
      fieldStrOk fd "graduateName" && fieldStrOk fd "degree" &&
      fieldStrOk fd "school" && fieldDateOk dateOk fd "graduationDate"
  | .baby_shower =>
      fieldArrOk fd "parentNames" && fieldDateOk dateOk fd "dueDate" &&
      fieldDateOk dateOk fd "partyDate" && fieldGenderOk fd "gender"
  | .business =>
      fieldStrOk fd "eventTitle" && fieldStrOk fd "company" &&
      fieldDateOk dateOk fd "eventDate"
  | .anniversary => true
  | .party => true

theorem jcheck_nil_str (fd : FormData) (k m : String)
    (h : fieldStrOk fd k = true) : jcheck fd k (fun v => !isStr v) m = [] := by
  unfold jcheck
  cases hg : jget fd k with
  | none => rfl
  | some v =>
    have h' : isStr v = true := by unfold fieldStrOk at h; rw [hg] at h; exact h
    simp [h']

theorem jcheck_nil_date (dateOk : JsValue → Bool) (fd : FormData) (k m : String)
    (h : fieldDateOk dateOk fd k = true) : jcheck fd k (fun v => !dateOk v) m = [] := by
  unfold jcheck
  cases hg : jget fd k with
  | none => rfl
  | some v =>
    have h' : dateOk v = true := by unfold fieldDateOk at h; rw [hg] at h; exact h
    simp [h']

theorem jcheck_nil_age (fd : FormData) (k m : String)
    (h : fieldNumNonnegOk fd k = true) :
    jcheck fd k (fun v => match v with | .num n => decide (n < 0) | _ => true) m = [] := by
  unfold fieldNumNonnegOk at h
  unfold jcheck
  cases hg : jget fd k with
  | none => rfl
  | some v =>
    rw [hg] at h
    cases v with
    | num n =>
      have hn : (0 : Int) ≤ n := by simpa using h
      have : decide (n < 0) = false := by simp; omega
      simp [this]
    | str s => exact Bool.noConfusion h
    | bool b => exact Bool.noConfusion h
    | null => exact Bool.noConfusion h
    | arr es => exact Bool.noConfusion h
    | obj fs => exact Bool.noConfusion h

theorem jcheck_nil_arr (fd : FormData) (k m : String)
    (h : fieldArrOk fd k = true) : jcheck fd k (fun v => !isArr v) m = [] := by
  unfold jcheck
  cases hg : jget fd k with
  | none => rfl
  | some v =>
    have h' : isArr v = true := by unfold fieldArrOk at h; rw [hg] at h; exact h
    simp [h']

theorem jcheck_nil_gender (fd : FormData) (k m : String)
    (h : fieldGenderOk fd k = true) :
    jcheck fd k (fun v => match v with
      | .str s => !(s == "boy" || s == "girl" || s == "surprise")
      | _ => true) m = [] := by
  unfold fieldGenderOk at h
  unfold jcheck
  cases hg : jget fd k with
  | none => rfl
  | some v =>
    rw [hg] at h
    cases v with
    | str s =>
      have h' : s = "boy" ∨ s = "girl" ∨ s = "surprise" := by
        simpa [or_assoc] using h
      rcases h' with rfl | rfl | rfl <;> rfl
    | num n => exact Bool.noConfusion h
    | bool b => exact Bool.noConfusion h
    | null => exact Bool.noConfusion h
    | arr es => exact Bool.noConfusion h
    | obj fs => exact Bool.noConfusion h

/-- C5 counterexample: the categories `anniversary` and `party` belong to the
fixed enumeration, yet the validator's switch has no case for them and every
payload — including the empty one — is rejected with "Invalid invitation
type". -/
theorem c5_supported_category_rejected :
    (validateInvitationData (fun _ => true) .anniversary []).isValid = false ∧
    (validateInvitationData (fun _ => true) .anniversary []).errors =
      ["Invalid invitation type"] ∧
    (validateInvitationData (fun _ => true) .party []).isValid = false := by
  refine ⟨rfl, rfl, rfl⟩

/-- C5 (amended): for the five categories handled by the validator's switch
(wedding, birthday, graduation, baby_shower, business), every payload whose
present fields match their declared shape is accepted; the remaining two
members of the enumeration, anniversary and party, are always rejected with
"Invalid invitation type". -/
theorem c5_validator_accepts_shaped (dateOk : JsValue → Bool) (fd : FormData) :
    (∀ ty, ty ∈ ([.wedding, .birthday, .graduation, .baby_shower, .business] :
        List InvitationType) →
      specShapeOk dateOk ty fd = true →
      (validateInvitationData dateOk ty fd).isValid = true) ∧
    (validateInvitationData dateOk .anniversary fd).isValid = false ∧
    (validateInvitationData dateOk .anniversary fd).errors = ["Invalid invitation type"] ∧
    (validateInvitationData dateOk .party fd).isValid = false ∧
    (validateInvitationData dateOk .party fd).errors = ["Invalid invitation type"] := by
  refine ⟨?_, rfl, rfl, rfl, rfl⟩
  intro ty hty hshape
  simp only [List.mem_cons, List.not_mem_nil, or_false] at hty
  rcases hty with rfl | rfl | rfl | rfl | rfl
  · simp only [specShapeOk, Bool.and_eq_true] at hshape
    obtain ⟨⟨⟨h1, h2⟩, h3⟩, h4⟩ := hshape
    unfold validateInvitationData validateWeddingData
    rw [jcheck_nil_str _ _ _ h1, jcheck_nil_str _ _ _ h2,
      jcheck_nil_date dateOk _ _ _ h4, jcheck_nil_str _ _ _ h3]
    rfl
  · simp only [specShapeOk, Bool.and_eq_true] at hshape
    obtain ⟨⟨h1, h2⟩, h3⟩ := hshape
    unfold validateInvitationData validateBirthdayData
    rw [jcheck_nil_str _ _ _ h1, jcheck_nil_age _ _ _ h2,
      jcheck_nil_date dateOk _ _ _ h3]
    rfl
  · simp only [specShapeOk, Bool.and_eq_true] at hshape
    obtain ⟨⟨⟨h1, h2⟩, h3⟩, h4⟩ := hshape
    unfold validateInvitationData validateGraduationData
    rw [jcheck_nil_str _ _ _ h1, jcheck_nil_str _ _ _ h2, jcheck_nil_str _ _ _ h3,
      jcheck_nil_date dateOk _ _ _ h4]
    rfl
  · simp only [specShapeOk, Bool.and_eq_true] at hshape
    obtain ⟨⟨⟨h1, h2⟩, h3⟩, h4⟩ := hshape
    unfold validateInvitationData validateBabyShowerData
    rw [jcheck_nil_arr _ _ _ h1, jcheck_nil_date dateOk _ _ _ h2,
      jcheck_nil_date dateOk _ _ _ h3, jcheck_nil_gender _ _ _ h4]
    rfl
  · simp only [specShapeOk, Bool.and_eq_true] at hshape
    obtain ⟨⟨h1, h2⟩, h3⟩ := hshape
    unfold validateInvitationData validateBusinessData
    rw [jcheck_nil_str _ _ _ h1, jcheck_nil_str _ _ _ h2,
      jcheck_nil_date dateOk _ _ _ h3]
    rfl

/-- C5 witness: the sample wedding payload is shape-valid and accepted. -/
theorem c5_validator_accepts_shaped_witness :
    (validateInvitationData (fun _ => true) .wedding sampleFormData).isValid = true :=
  (c5_validator_accepts_shaped (fun _ => true) sampleFormData).1 .wedding
    (by simp) (by decide)

/-! ## Claim C6 -/

/-- C6: for every sequence of N creates with identical name fields under the
same category, starting from any persisted-slug store: N slugs are produced,
they are pairwise distinct, and the k-th one is the first value free at its
creation time in the candidate order `base`, `base-1`, `base-2`, ... (the
unsuffixed base when free, otherwise the smallest unused numeric suffix). -/
theorem c6_slug_sequence (ty : InvitationType) (fd : FormData)
    (taken : List String) (n : Nat) :
    (slugSeq ty fd taken n).length = n ∧
    (slugSeq ty fd taken n).Nodup ∧
    (∀ k (hk : k < (slugSeq ty fd taken n).length),
      IsFirstFreeSlug (cleanSlug (rawBase ty fd))
        ((slugSeq ty fd taken n).take k ++ taken)
        ((slugSeq ty fd taken n).get ⟨k, hk⟩)) :=
  ⟨slugSeq_length ty fd n taken, slugSeq_nodup ty fd n taken,
    fun k hk => slugSeq_firstFree ty fd n taken k hk⟩

/-- C6 witness: two creates of the sample wedding data on a store already
holding the base slug produce the suffixed slugs in first-free order; the
second one is first-free against the store grown by the first. -/
theorem c6_slug_sequence_witness :
    slugSeq .wedding sampleFormData ["sarah-john-wedding"] 2 =
      ["sarah-john-wedding-1", "sarah-john-wedding-2"] ∧
    IsFirstFreeSlug (cleanSlug (rawBase .wedding sampleFormData))
      ((slugSeq .wedding sampleFormData ["sarah-john-wedding"] 2).take 1 ++
        ["sarah-john-wedding"])
      ((slugSeq .wedding sampleFormData ["sarah-john-wedding"] 2).get
        ⟨1, by rw [(c6_slug_sequence .wedding sampleFormData ["sarah-john-wedding"] 2).1]; omega⟩) :=
  ⟨by decide,
    (c6_slug_sequence .wedding sampleFormData ["sarah-john-wedding"] 2).2.2 1 _⟩

/-! ## Claim C7 -/

/-- C7 counterexample: there is no defensive bound after which slug generation
fails closed — for any claimed bound N, the store holding the first N + 1
candidates forces more than N suffix attempts, yet generation still succeeds
rather than failing. -/
theorem c7_no_fail_closed :
    ¬ ∃ N : Nat, ∀ taken : List String,
      (∀ m, m ≤ N → slugCands (cleanSlug (rawBase .party [])) m ∈ taken) →
      generate_invitation_slug .party [] taken = none := by
  rintro ⟨N, hN⟩
  set base := cleanSlug (rawBase .party []) with hbase
  have hfull : ∀ m, m ≤ N →
      slugCands base m ∈ (List.range (N + 1)).map (slugCands base) := by
    intro m hm
    exact List.mem_map_of_mem _ (List.mem_range.mpr (by omega))
  have hnone := hN ((List.range (N + 1)).map (slugCands base)) hfull
  obtain ⟨s, hs, _⟩ :=
    generate_slug_firstFree .party [] ((List.range (N + 1)).map (slugCands base))
  rw [hnone] at hs
  exact Option.noConfusion hs

/-- C7 (amended): the `WHILE EXISTS` loop of `generate_invitation_slug`
terminates on every finite persisted-slug store — the first free candidate
index is at most the store size, so at most `taken.length + 1` probes run —
but the source has no defensive attempt cap and no fail-closed path: slug
generation always returns a slug. -/
theorem c7_slug_loop_terminates (ty : InvitationType) (fd : FormData)
    (taken : List String) :
    ∃ s m, generate_invitation_slug ty fd taken = some s ∧
      s = slugCands (cleanSlug (rawBase ty fd)) m ∧ m ≤ taken.length := by
  obtain ⟨s, hs, m, hsm, hfree, hmin⟩ := generate_slug_firstFree ty fd taken
  obtain ⟨m1, hm1le, hm1free⟩ := exists_free_cand taken (cleanSlug (rawBase ty fd))
  refine ⟨s, m, hs, hsm, ?_⟩
  by_contra hgt
  have hm1lt : m1 < m := by omega
  exact hm1free (hmin m1 hm1lt)

/-! ## Claim C8 -/

/-- C8: when slug generation fails (the RPC to the uniqueness procedure
errors), `InvitationService.create` still succeeds: the generated slug is the
fallback `{category}-invitation-{timestamp}`, the row is inserted with it, and
the create enters draft state as usual. -/
theorem c8_create_slug_fallback (e : Unit) (newId : String) (now : Nat)
    (uid : String) (req : CreateReq) (store : List Invitation) :
    serviceGenerateSlug (.error e) req.ty now =
      typeStr req.ty ++ "-invitation-" ++ decRepr now ∧
    (serviceCreate (.error e) newId now uid req store).1.slug =
      typeStr req.ty ++ "-invitation-" ++ decRepr now ∧
    (serviceCreate (.error e) newId now uid req store).1 ∈
      (serviceCreate (.error e) newId now uid req store).2 ∧
    (serviceCreate (.error e) newId now uid req store).1.status = .draft := by
  refine ⟨rfl, rfl, ?_, rfl⟩
  simp [serviceCreate]

/-! ## Claim C9 -/

theorem refCodeLoop_exhaust (existing : List String) (draws : Nat → Fin 36)
    (h : ∀ j, j < 10 → drawnCode draws j ∈ existing) :
    ∀ f k, refCodeLoop existing draws f k =
      .error "Failed to generate unique referral code" := by
  intro f
  induction f with
  | zero => intro k; rfl
  | succ f ih =>
    intro k
    by_cases hk : k + 1 > 10
    · simp [refCodeLoop, hk]
    · have hklt : k < 10 := by omega
      simp [refCodeLoop, hk, ih, h k hklt]

/-- C9: every generated referral code is exactly 8 characters over the
alphabet `[A-Z0-9]`, and when every drawn code collides with an existing code
the reseller-creation loop stops after its bounded number of attempts and
fails with the distinct "Failed to generate unique referral code" error
instead of retrying forever or inserting a duplicate. -/
theorem c9_referral_code (draws : Nat → Fin 36) (existing : List String) :
    (generateReferralCode draws 8).length = 8 ∧
    (∀ c, c ∈ (generateReferralCode draws 8).data → c ∈ refAlphabet) ∧
    ((∀ j, j < 10 → drawnCode draws j ∈ existing) →
      createReseller false existing draws =
        .error "Failed to generate unique referral code") := by
  refine ⟨?_, ?_, ?_⟩
  · simp [generateReferralCode, String.length]
  · intro c hc
    simp only [generateReferralCode, String.data, List.mem_map] at hc
    obtain ⟨i, _, rfl⟩ := hc
    unfold refCodeChar
    exact List.get_mem _ _ _
  · intro h
    simpa [createReseller] using refCodeLoop_exhaust existing draws h 12 0

/-- C9 witness: a draw stream stuck on index 0 yields "AAAAAAAA" every time;
with that code already persisted, reseller creation fails with the distinct
error. -/
theorem c9_referral_code_witness :
    createReseller false ["AAAAAAAA"] (fun _ => 0) =
      .error "Failed to generate unique referral code" :=
  (c9_referral_code (fun _ => 0) ["AAAAAAAA"]).2.2 (by decide)

end Inv
